import Mathlib

/-!
Verification of the merde JSON value builder (`src/merde_json/src/parser.rs`)
against its natural-language specification.

The Token Source (the external `jiter` pull-parser) is modelled at its
interface boundary: a build consumes a `Script`, the list of responses the
Token Source returns to the successive cursor operations the builder invokes
(`peek`, `known_str`, `known_array`, `array_step`, `known_object`,
`next_key`, `next_int`, `next_float`).  Machine addresses are modelled as
naturals; byte lengths of string texts are their UTF-8 byte sizes.
-/

set_option autoImplicit false
set_option maxRecDepth 4000

namespace Merde

/-- Address range of the input byte buffer `src : &[u8]`: it occupies the
half-open address interval `[base, base + len)`, which is what
`src.as_ptr_range()` denotes in `cowify`. -/
structure Buf where
  base : Nat
  len : Nat
deriving DecidableEq

/-- A string slice (`&str`) handed to the builder by the Token Source:
`ptr` models `s.as_ptr()` and `text` its UTF-8 content, so the backing byte
range is `[ptr, ptr + text.utf8ByteSize)` (`s.len()` is the byte size). -/
structure Span where
  ptr : Nat
  text : String
deriving DecidableEq

/-- Modelled from the spec: the StringSpan type (`merde_types::CowStr`,
whose source is not vendored here): either a zero-copy `Borrowed` view of a
byte range starting at `ptr`, or an independently allocated `Owned` string. -/
inductive CowStr where
  | Borrowed (ptr : Nat) (text : String)
  | Owned (text : String)
deriving DecidableEq

/-- The character content of a StringSpan, irrespective of variant. -/
def CowStr.content : CowStr → String
  | .Borrowed _ t => t
  | .Owned t => t

/-- Opaque model of 64-bit IEEE floats.  The builder never computes with
floats: it only forwards values received from the Token Source, plus the
two constants `f64::INFINITY` and `f64::NAN` used for the `Infinity` and
`NaN` peek kinds, so floats are modelled as uninterpreted tokens
(`finite m e` is just a name for a finite value supplied by the source). -/
inductive F64 where
  | infinity
  | nan
  | finite (mant : Int) (exp : Int)
deriving DecidableEq

/-- Modelled from the spec: the dynamically-typed value tree
(`merde_types::Value`, whose source is not vendored here): Null, Bool,
64-bit signed Int, Float, Str over a StringSpan, ordered Array, and Map
from StringSpan keys to values. -/
inductive Value where
  | Null
  | Bool (b : Bool)
  | Int (i : Int)
  | Float (f : F64)
  | Str (s : CowStr)
  | Array (elems : List Value)
  | Map (entries : List (CowStr × Value))

/-- Map entries, in insertion order. -/
abbrev Map := List (CowStr × Value)

/-- Modelled from the spec: `merde_types::Map::insert`; an insert-or-
overwrite operation where later insertions of an equal key supersede
earlier ones, key equality being content equality of the StringSpans. -/
def Map.insert (m : Map) (k : CowStr) (v : Value) : Map :=
  match m with
  | [] => [(k, v)]
  | (k0, v0) :: rest =>
    if k0.content = k.content then (k0, v) :: rest
    else (k0, v0) :: Map.insert rest k v

/-- Token kind returned by `peek`: `jiter::Peek` is a newtype over the
first byte of the upcoming token, with named constants for the recognized
kinds. -/
structure Peek where
  byte : Nat
deriving DecidableEq

/-- Peek constant for `null` (byte of the letter n). -/
def Peek.Null : Peek := ⟨110⟩

/-- Peek constant for `true` (byte of the letter t). -/
def Peek.True : Peek := ⟨116⟩

/-- Peek constant for `false` (byte of the letter f). -/
def Peek.False : Peek := ⟨102⟩

/-- Peek constant for a bare minus sign (byte 45). -/
def Peek.Minus : Peek := ⟨45⟩

/-- Peek constant for the `Infinity` literal (byte of the letter I). -/
def Peek.Infinity : Peek := ⟨73⟩

/-- Peek constant for the `NaN` literal (byte of the letter N). -/
def Peek.NaN : Peek := ⟨78⟩

/-- Peek constant for a string opening quote (byte 34). -/
def Peek.String : Peek := ⟨34⟩

/-- Peek constant for an array opening bracket (byte 91). -/
def Peek.Array : Peek := ⟨91⟩

/-- Peek constant for an object opening brace (byte 123). -/
def Peek.Object : Peek := ⟨123⟩

/-- The Token Source's numeric classification `Peek::is_num`: an ASCII
digit, or the minus / Infinity / NaN bytes. -/
def Peek.isNum (p : Peek) : Bool :=
  (48 ≤ p.byte && p.byte ≤ 57) || p.byte == 45 || p.byte == 73 || p.byte == 78

/-- Abstract model of `jiter::JiterError`, the Token Source's lexical error
value.  The builder never inspects it, so only its identity matters: two
fields suffice to distinguish concrete error values. -/
structure JErr where
  etype : Nat
  index : Nat
deriving DecidableEq

/-- Result of consuming a numeric token as an integer
(`jiter::NumberInt`): either a 64-bit value or an arbitrary-precision
`BigInt` form (whose digits the builder never looks at). -/
inductive NumberInt where
  | int (i : Int)
  | bigInt
deriving DecidableEq

/-- One response of the Token Source to one cursor operation; each
constructor corresponds to one `Jiter` method the builder calls, and each
carries that method's fallible result. -/
inductive Resp where
  | peek (r : Except JErr Peek)
  | knownStr (r : Except JErr Span)
  | knownArray (r : Except JErr (Option Peek))
  | arrayStep (r : Except JErr (Option Peek))
  | knownObject (r : Except JErr (Option Span))
  | nextKey (r : Except JErr (Option Span))
  | nextInt (r : Except JErr NumberInt)
  | nextFloat (r : Except JErr F64)

/-- The sequence of responses the Token Source returns to the successive
operations a build performs. -/
abbrev Script := List Resp

/-- The four places where `jiter_to_value_with_peek` panics instead of
returning: `unimplemented!()` on a bare `Minus` peek, `unimplemented!("BigInt")`
on an arbitrary-precision integer, `unreachable!("not an int, not a float!")`
when both numeric consumptions fail, and `unimplemented!("peek {:?}", peek)`
on an unrecognized peek kind. -/
inductive PanicSite where
  | minusUnimplemented
  | bigIntUnimplemented
  | intNorFloat
  | peekUnimplemented (p : Peek)
deriving DecidableEq

/-- Possible outcomes of a builder call: a value together with the number
of responses consumed (`Ok`), a propagated Token Source error (`Err` via
the `?` operator), a panic at one of the four panic sites of the source,
or `stuck`, a modelling artifact meaning the script answered a different
operation than the one the builder invoked (impossible for a real cursor). -/
inductive StepR (α : Type) where
  | ok (v : α) (consumed : Nat)
  | err (e : JErr)
  | panicked (site : PanicSite)
  | stuck

/-- True exactly on the `err` outcome, i.e. on a failure returned to the
caller through the catchable `Result` channel. -/
def StepR.isErr {α : Type} : StepR α → Bool
  | .err _ => true
  | _ => false

/-- The borrow/copy decision of `cowify` (parser.rs lines 71-79): if
`src.as_ptr_range().contains(&s.as_ptr())` — that is, the slice's start
address lies in `[base, base + len)` — rebuild a `Borrowed` str from the
same pointer and length, otherwise copy into an `Owned` string. -/
def cowify (src : Buf) (s : Span) : CowStr :=
  if src.base ≤ s.ptr ∧ s.ptr < src.base + src.len then
    CowStr.Borrowed s.ptr s.text
  else
    CowStr.Owned s.text

/-- The `Peek::String` arm of the dispatch (parser.rs lines 29-32):
consume the string token with `known_str` (propagating its error with `?`)
and apply the borrow/copy decision. -/
def strCase (src : Buf) (s : Script) : StepR Value :=
  match s with
  | .knownStr (.ok sp) :: _ => .ok (.Str (cowify src sp)) 1
  | .knownStr (.error e) :: _ => .err e
  | _ => .stuck

/-- The numeric arm of the dispatch (parser.rs lines 53-66): attempt
`next_int` first; a 64-bit value becomes `Value::Int`, the
arbitrary-precision `BigInt` form panics (`unimplemented!("BigInt")`); if
integer consumption fails, attempt `next_float` (its success becomes
`Value::Float`, its failure hits `unreachable!("not an int, not a
float!")`). -/
def numCase (s : Script) : StepR Value :=
  match s with
  | .nextInt (.ok (.int i)) :: _ => .ok (.Int i) 1
  | .nextInt (.ok .bigInt) :: _ => .panicked .bigIntUnimplemented
  | .nextInt (.error _) :: rest =>
    match rest with
    | .nextFloat (.ok f) :: _ => .ok (.Float f) 2
    | .nextFloat (.error _) :: _ => .panicked .intNorFloat
    | _ => .stuck
  | _ => .stuck

mutual

/-- Shallow embedding of `jiter_to_value_with_peek` (parser.rs lines
17-69): dispatch on the peeked token kind, in the source's arm order
(Null, True, False, Minus, Infinity, NaN, String, Array, Object, the
`is_num` guard, wildcard), recursively building array elements and object
entries.  The `Minus` arm and the wildcard arm panic exactly as the
source does (`unimplemented!`). -/
def jiter_to_value_with_peek (src : Buf) (p : Peek) (s : Script) : StepR Value :=
  if p = Peek.Null then .ok .Null 0
  else if p = Peek.True then .ok (.Bool true) 0
  else if p = Peek.False then .ok (.Bool false) 0
  else if p = Peek.Minus then .panicked .minusUnimplemented
  else if p = Peek.Infinity then .ok (.Float .infinity) 0
  else if p = Peek.NaN then .ok (.Float .nan) 0
  else if p = Peek.String then strCase src s
  else if p = Peek.Array then arrCase src s
  else if p = Peek.Object then objCase src s
  else if p.isNum then numCase s
  else .panicked (.peekUnimplemented p)
termination_by 3 * s.length + 1

/-- The `Peek::Array` arm of the dispatch (parser.rs lines 33-41):
consume the opening with `known_array` (propagating its error with `?`)
and run the element loop from an empty accumulator. -/
def arrCase (src : Buf) (s : Script) : StepR Value :=
  match s with
  | .knownArray (.ok first) :: rest =>
    match arrLoop src first [] rest with
    | .ok elems k => .ok (.Array elems) (1 + k)
    | .err e => .err e
    | .panicked site => .panicked site
    | .stuck => .stuck
  | .knownArray (.error e) :: _ => .err e
  | _ => .stuck
termination_by 3 * s.length

/-- The `Peek::Object` arm of the dispatch (parser.rs lines 42-52):
consume the opening with `known_object` (propagating its error with `?`)
and run the entry loop from an empty map. -/
def objCase (src : Buf) (s : Script) : StepR Value :=
  match s with
  | .knownObject (.ok firstKey) :: rest =>
    match objLoop src firstKey [] rest with
    | .ok entries k => .ok (.Map entries) (1 + k)
    | .err e => .err e
    | .panicked site => .panicked site
    | .stuck => .stuck
  | .knownObject (.error e) :: _ => .err e
  | _ => .stuck
termination_by 3 * s.length

/-- The array loop of the `Peek::Array` arm (parser.rs lines 33-41):
while the step yields a next element kind, recursively build the element,
push it onto the accumulator, and advance with `array_step`. -/
def arrLoop (src : Buf) (next : Option Peek) (acc : List Value) (s : Script) :
    StepR (List Value) :=
  match next with
  | none => .ok acc 0
  | some p =>
    match jiter_to_value_with_peek src p s with
    | .ok v k =>
      match h2 : s.drop k with
      | .arrayStep (.ok next2) :: rest2 =>
        match arrLoop src next2 (acc ++ [v]) rest2 with
        | .ok elems k2 => .ok elems (k + 1 + k2)
        | .err e => .err e
        | .panicked site => .panicked site
        | .stuck => .stuck
      | .arrayStep (.error e) :: _ => .err e
      | _ => .stuck
    | .err e => .err e
    | .panicked site => .panicked site
    | .stuck => .stuck
termination_by 3 * s.length + 2
decreasing_by
  all_goals try simp only [List.length_cons]
  all_goals try omega
  all_goals
    have h3 := congrArg List.length h2
    simp only [List.length_drop, List.length_cons] at h3
    omega

/-- The object loop of the `Peek::Object` arm (parser.rs lines 42-52):
while there is a next key, apply the borrow/copy decision to it, peek and
recursively build the associated value, insert the pair (overwriting any
prior entry with a content-equal key), and advance with `next_key`. -/
def objLoop (src : Buf) (next : Option Span) (acc : Map) (s : Script) :
    StepR Map :=
  match next with
  | none => .ok acc 0
  | some key =>
    let k0 := cowify src key
    match s with
    | .peek (.ok p) :: rest =>
      match jiter_to_value_with_peek src p rest with
      | .ok v k =>
        match h2 : rest.drop k with
        | .nextKey (.ok next2) :: rest2 =>
          match objLoop src next2 (Map.insert acc k0 v) rest2 with
          | .ok entries k2 => .ok entries (1 + k + 1 + k2)
          | .err e => .err e
          | .panicked site => .panicked site
          | .stuck => .stuck
        | .nextKey (.error e) :: _ => .err e
        | _ => .stuck
      | .err e => .err e
      | .panicked site => .panicked site
      | .stuck => .stuck
    | .peek (.error e) :: _ => .err e
    | _ => .stuck
termination_by 3 * s.length + 2
decreasing_by
  all_goals try simp only [List.length_cons]
  all_goals try omega
  all_goals
    have h3 := congrArg List.length h2
    simp only [List.length_drop, List.length_cons] at h3
    omega

end

/-- Shallow embedding of `jiter_to_value` (parser.rs lines 9-15): peek the
next token kind, propagating any lexical error with `?`, then dispatch. -/
def jiter_to_value (src : Buf) (s : Script) : StepR Value :=
  match s with
  | .peek (.ok p) :: rest =>
    match jiter_to_value_with_peek src p rest with
    | .ok v k => .ok v (1 + k)
    | .err e => .err e
    | .panicked site => .panicked site
    | .stuck => .stuck
  | .peek (.error e) :: _ => .err e
  | _ => .stuck

/-- Content-based key lookup in a map: the value at the first key whose
content equals `c`. -/
def lookupContent : Map → String → Option Value
  | [], _ => none
  | (k, v) :: rest, c => if k.content = c then some v else lookupContent rest c

/-- The key contents of a map's entries, in order. -/
def keyList (m : Map) : List String :=
  m.map (fun kv => kv.1.content)

/-- Insert a sequence of key/value pairs into a map, in order, with the
builder's insert-or-overwrite operation — exactly what the object loop
does to its accumulator. -/
def insertAll (m : Map) (ps : List (CowStr × Value)) : Map :=
  ps.foldl (fun acc kv => Map.insert acc kv.1 kv.2) m

/-- The value bound by the last pair of `ps` whose key content is `c`, if
any: the reference meaning of "last write wins". -/
def lastValue (ps : List (CowStr × Value)) (c : String) : Option Value :=
  ps.foldl (fun r kv => if kv.1.content = c then some kv.2 else r) none

theorem build_peek_null (src : Buf) (s : Script) :
    jiter_to_value_with_peek src Peek.Null s = .ok .Null 0 := by
  rw [jiter_to_value_with_peek.eq_def]
  simp

theorem build_peek_true (src : Buf) (s : Script) :
    jiter_to_value_with_peek src Peek.True s = .ok (.Bool true) 0 := by
  rw [jiter_to_value_with_peek.eq_def]
  simp [Peek.True, Peek.Null]

theorem build_peek_false (src : Buf) (s : Script) :
    jiter_to_value_with_peek src Peek.False s = .ok (.Bool false) 0 := by
  rw [jiter_to_value_with_peek.eq_def]
  simp [Peek.False, Peek.Null, Peek.True]

theorem build_peek_minus (src : Buf) (s : Script) :
    jiter_to_value_with_peek src Peek.Minus s = .panicked .minusUnimplemented := by
  rw [jiter_to_value_with_peek.eq_def]
  simp [Peek.Minus, Peek.Null, Peek.True, Peek.False]

theorem build_peek_infinity (src : Buf) (s : Script) :
    jiter_to_value_with_peek src Peek.Infinity s = .ok (.Float .infinity) 0 := by
  rw [jiter_to_value_with_peek.eq_def]
  simp [Peek.Infinity, Peek.Null, Peek.True, Peek.False, Peek.Minus]

theorem build_peek_nan (src : Buf) (s : Script) :
    jiter_to_value_with_peek src Peek.NaN s = .ok (.Float .nan) 0 := by
  rw [jiter_to_value_with_peek.eq_def]
  simp [Peek.NaN, Peek.Null, Peek.True, Peek.False, Peek.Minus, Peek.Infinity]

theorem build_peek_string (src : Buf) (s : Script) :
    jiter_to_value_with_peek src Peek.String s = strCase src s := by
  rw [jiter_to_value_with_peek.eq_def]
  simp [Peek.String, Peek.Null, Peek.True, Peek.False, Peek.Minus, Peek.Infinity, Peek.NaN]

theorem build_peek_array (src : Buf) (s : Script) :
    jiter_to_value_with_peek src Peek.Array s = arrCase src s := by
  rw [jiter_to_value_with_peek.eq_def]
  simp [Peek.Array, Peek.Null, Peek.True, Peek.False, Peek.Minus, Peek.Infinity, Peek.NaN,
    Peek.String]

theorem build_peek_object (src : Buf) (s : Script) :
    jiter_to_value_with_peek src Peek.Object s = objCase src s := by
  rw [jiter_to_value_with_peek.eq_def]
  simp [Peek.Object, Peek.Null, Peek.True, Peek.False, Peek.Minus, Peek.Infinity, Peek.NaN,
    Peek.String, Peek.Array]

theorem build_peek_digit (src : Buf) (b : Nat) (s : Script)
    (hb1 : 48 ≤ b) (hb2 : b ≤ 57) :
    jiter_to_value_with_peek src ⟨b⟩ s = numCase s := by
  have c1 : (⟨b⟩ : Peek) ≠ Peek.Null := by simp [Peek.Null]; omega
  have c2 : (⟨b⟩ : Peek) ≠ Peek.True := by simp [Peek.True]; omega
  have c3 : (⟨b⟩ : Peek) ≠ Peek.False := by simp [Peek.False]; omega
  have c4 : (⟨b⟩ : Peek) ≠ Peek.Minus := by simp [Peek.Minus]; omega
  have c5 : (⟨b⟩ : Peek) ≠ Peek.Infinity := by simp [Peek.Infinity]; omega
  have c6 : (⟨b⟩ : Peek) ≠ Peek.NaN := by simp [Peek.NaN]; omega
  have c7 : (⟨b⟩ : Peek) ≠ Peek.String := by simp [Peek.String]; omega
  have c8 : (⟨b⟩ : Peek) ≠ Peek.Array := by simp [Peek.Array]; omega
  have c9 : (⟨b⟩ : Peek) ≠ Peek.Object := by simp [Peek.Object]; omega
  have cn : (⟨b⟩ : Peek).isNum = true := by
    simp only [Peek.isNum, Bool.or_eq_true, decide_eq_true_eq, Bool.and_eq_true]
    omega
  rw [jiter_to_value_with_peek.eq_def]
  simp [c1, c2, c3, c4, c5, c6, c7, c8, c9, cn]

theorem build_peek_unsupported (src : Buf) (p : Peek) (s : Script)
    (c1 : p ≠ Peek.Null) (c2 : p ≠ Peek.True) (c3 : p ≠ Peek.False)
    (c4 : p ≠ Peek.Minus) (c5 : p ≠ Peek.Infinity) (c6 : p ≠ Peek.NaN)
    (c7 : p ≠ Peek.String) (c8 : p ≠ Peek.Array) (c9 : p ≠ Peek.Object)
    (cn : p.isNum = false) :
    jiter_to_value_with_peek src p s = .panicked (.peekUnimplemented p) := by
  rw [jiter_to_value_with_peek.eq_def]
  simp [c1, c2, c3, c4, c5, c6, c7, c8, c9, cn]

theorem lookupContent_insert (m : Map) (k : CowStr) (v : Value) (c : String) :
    lookupContent (Map.insert m k v) c
      = if k.content = c then some v else lookupContent m c := by
  induction m with
  | nil => simp [Map.insert, lookupContent]
  | cons kv rest ih =>
    obtain ⟨k0, v0⟩ := kv
    rw [Map.insert]
    by_cases h0 : k0.content = k.content
    · by_cases hc : k.content = c <;> simp_all [lookupContent]
    · by_cases hc : k.content = c <;> by_cases h0c : k0.content = c <;>
        simp_all [lookupContent]

theorem mem_keyList_insert (m : Map) (k : CowStr) (v : Value) (c : String)
    (h : c ∈ keyList (Map.insert m k v)) : c ∈ keyList m ∨ c = k.content := by
  induction m with
  | nil => simp_all [Map.insert, keyList]
  | cons kv rest ih =>
    obtain ⟨k0, v0⟩ := kv
    rw [Map.insert] at h
    by_cases h0 : k0.content = k.content
    · simp_all [keyList]
    · simp only [h0, if_false, keyList, List.map_cons, List.mem_cons] at h ⊢
      rcases h with h | h
      · tauto
      · rcases ih h with h | h <;> tauto

theorem nodup_keyList_insert (m : Map) (k : CowStr) (v : Value)
    (h : (keyList m).Nodup) : (keyList (Map.insert m k v)).Nodup := by
  induction m with
  | nil => simp [Map.insert, keyList]
  | cons kv rest ih =>
    obtain ⟨k0, v0⟩ := kv
    rw [Map.insert]
    by_cases h0 : k0.content = k.content
    · simpa [keyList, h0] using h
    · simp only [h0, if_false, keyList, List.map_cons, List.nodup_cons] at h ⊢
      refine ⟨fun hmem => ?_, ih h.2⟩
      rcases mem_keyList_insert rest k v k0.content hmem with hin | heq
      · exact h.1 hin
      · exact h0 heq

theorem nodup_keyList_insertAll (ps : List (CowStr × Value)) :
    ∀ (m : Map), (keyList m).Nodup → (keyList (insertAll m ps)).Nodup := by
  induction ps with
  | nil => intro m h; simpa [insertAll] using h
  | cons kv ps ih =>
    intro m h
    have := ih (Map.insert m kv.1 kv.2) (nodup_keyList_insert m kv.1 kv.2 h)
    simpa [insertAll, List.foldl_cons] using this

theorem lookupContent_insertAll (ps : List (CowStr × Value)) :
    ∀ (m : Map) (c : String),
      lookupContent (insertAll m ps) c
        = ps.foldl (fun r kv => if kv.1.content = c then some kv.2 else r)
            (lookupContent m c) := by
  induction ps with
  | nil => intro m c; simp [insertAll]
  | cons kv ps ih =>
    intro m c
    have h1 := ih (Map.insert m kv.1 kv.2) c
    simp only [insertAll, List.foldl_cons] at h1 ⊢
    rw [h1, lookupContent_insert]

theorem arrLoop_acc_general (src : Buf) :
    ∀ (n : Nat) (s : Script), s.length ≤ n → ∀ (next : Option Peek) (acc : List Value),
      arrLoop src next acc s
        = match arrLoop src next [] s with
          | StepR.ok tail k => StepR.ok (acc ++ tail) k
          | StepR.err e => StepR.err e
          | StepR.panicked site => StepR.panicked site
          | StepR.stuck => StepR.stuck := by
  intro n
  induction n with
  | zero =>
    intro s hs next acc
    have hnil : s = [] := List.eq_nil_of_length_eq_zero (Nat.le_zero.mp hs)
    subst hnil
    cases next with
    | none => simp [arrLoop]
    | some p =>
      rw [arrLoop.eq_def]
      conv_rhs => rw [arrLoop.eq_def]
      rcases hb : jiter_to_value_with_peek src p [] with ⟨v, k⟩ | e | site | _ <;>
        simp [hb, List.drop_nil]
  | succ n ih =>
    intro s hs next acc
    cases next with
    | none => simp [arrLoop]
    | some p =>
      rw [arrLoop.eq_def]
      conv_rhs => rw [arrLoop.eq_def]
      rcases hb : jiter_to_value_with_peek src p s with ⟨v, k⟩ | e | site | _ <;>
        simp only [hb] <;> try rfl
      rcases hd : s.drop k with _ | ⟨r, rest2⟩
      · try rfl
        try simp
      · have hlen : rest2.length ≤ n := by
          have h3 := congrArg List.length hd
          simp only [List.length_drop, List.length_cons] at h3
          omega
        rcases r with r1 | r2 | r3 | ⟨e4 | r4⟩ | r5 | r6 | r7 | r8 <;> try rfl
        have e1 := ih rest2 hlen r4 (acc ++ [v])
        have e2 := ih rest2 hlen r4 [v]
        simp only [List.nil_append]
        rw [e1, e2]
        rcases hz : arrLoop src r4 [] rest2 with ⟨t, kk⟩ | e | site | _ <;>
          simp [hz, List.append_assoc]

theorem arrLoop_append_acc (src : Buf) (s : Script) (next : Option Peek)
    (acc tail : List Value) (k : Nat)
    (h : arrLoop src next [] s = StepR.ok tail k) :
    arrLoop src next acc s = StepR.ok (acc ++ tail) k := by
  have e := arrLoop_acc_general src s.length s le_rfl next acc
  rw [h] at e
  exact e

theorem arrLoop_cons (src : Buf) (p : Peek) (s : Script) (v : Value) (k : Nat)
    (next2 : Option Peek) (rest2 : Script) (tail : List Value) (k2 : Nat)
    (hb : jiter_to_value_with_peek src p s = StepR.ok v k)
    (hd : s.drop k = Resp.arrayStep (Except.ok next2) :: rest2)
    (hz : arrLoop src next2 [] rest2 = StepR.ok tail k2) :
    arrLoop src (some p) [] s = StepR.ok (v :: tail) (k + 1 + k2) := by
  have hacc : arrLoop src next2 [v] rest2 = StepR.ok ([v] ++ tail) k2 :=
    arrLoop_append_acc src rest2 next2 [v] tail k2 hz
  rw [arrLoop.eq_def]
  simp only [hb, List.nil_append]
  rw [hd]
  simp [hacc]

/-- C1 (counterexample): the borrow decision of `cowify` is only a
start-pointer membership check, not a verification that the text's full
backing byte range lies within the buffer: with a buffer occupying
addresses `[100, 104)` and a 10-byte string slice starting at address
102, the builder produces a `Borrowed` StringSpan even though the slice's
backing range `[102, 112)` extends past the buffer's end. -/
theorem C1_cex :
    jiter_to_value_with_peek ⟨100, 4⟩ Peek.String
        [Resp.knownStr (Except.ok ⟨102, "0123456789"⟩)]
      = StepR.ok (Value.Str (CowStr.Borrowed 102 "0123456789")) 1
    ∧ ¬ (102 + ("0123456789" : String).utf8ByteSize ≤ 100 + 4) := by
  constructor
  · simp [build_peek_string, strCase, cowify]
  · decide

/-- C1 (amended): every string slice whose backing byte range is a
nonempty sub-range of the input buffer — as holds for JSON strings
appearing verbatim in the buffer — becomes a Borrowed StringSpan backed
by that same range, which therefore lies entirely within the buffer's
range; the borrow decision itself, however, only checks that the start
pointer lies inside the buffer's address range. -/
theorem C1_verbatim_borrowed (src : Buf) (sp : Span) (s : Script)
    (h1 : src.base ≤ sp.ptr)
    (h2 : sp.ptr + sp.text.utf8ByteSize ≤ src.base + src.len)
    (h3 : 0 < sp.text.utf8ByteSize) :
    jiter_to_value_with_peek src Peek.String (Resp.knownStr (Except.ok sp) :: s)
      = StepR.ok (Value.Str (CowStr.Borrowed sp.ptr sp.text)) 1
    ∧ src.base ≤ sp.ptr ∧ sp.ptr + sp.text.utf8ByteSize ≤ src.base + src.len := by
  have hlt : sp.ptr < src.base + src.len := by omega
  refine ⟨?_, h1, h2⟩
  simp [build_peek_string, strCase, cowify, h1, hlt]

/-- C1 (witness): the amended theorem applied to the buffer `[0, 16)` and
the 4-byte slice at address 4. -/
theorem C1_verbatim_borrowed_witness :
    (0 : Nat) ≤ 4 ∧ 4 + ("abcd" : String).utf8ByteSize ≤ 0 + 16
    ∧ 0 < ("abcd" : String).utf8ByteSize
    ∧ (jiter_to_value_with_peek ⟨0, 16⟩ Peek.String
          [Resp.knownStr (Except.ok ⟨4, "abcd"⟩)]
        = StepR.ok (Value.Str (CowStr.Borrowed 4 "abcd")) 1
      ∧ (0 : Nat) ≤ 4 ∧ 4 + ("abcd" : String).utf8ByteSize ≤ 0 + 16) :=
  ⟨by decide, by decide, by decide,
   C1_verbatim_borrowed ⟨0, 16⟩ ⟨4, "abcd"⟩ [] (by decide) (by decide) (by decide)⟩

/-- C2 (counterexample): on a numeric token whose integer form is the
arbitrary-precision `BigInt` shape, the builder does not fail with a
catchable error — it panics (`unimplemented!("BigInt")`), aborting
instead of returning through the catchable error channel. -/
theorem C2_cex :
    jiter_to_value_with_peek ⟨0, 30⟩ ⟨49⟩ [Resp.nextInt (Except.ok NumberInt.bigInt)]
      = StepR.panicked PanicSite.bigIntUnimplemented
    ∧ (jiter_to_value_with_peek ⟨0, 30⟩ ⟨49⟩
        [Resp.nextInt (Except.ok NumberInt.bigInt)]).isErr = false := by
  have h := build_peek_digit ⟨0, 30⟩ 49 [Resp.nextInt (Except.ok NumberInt.bigInt)]
    (by decide) (by decide)
  rw [h]
  exact ⟨rfl, rfl⟩

/-- C2 (amended): for every numeric token whose integer form is the
arbitrary-precision shape, the build fails fast at a distinct, explicit
panic site (`unimplemented!("BigInt")`) — it neither wraps around, nor
falls back to float consumption, nor returns a value; the failure is a
panic rather than a catchable error return. -/
theorem C2_bigint_fails_fast (src : Buf) (b : Nat) (s : Script)
    (hb1 : 48 ≤ b) (hb2 : b ≤ 57) :
    jiter_to_value_with_peek src ⟨b⟩ (Resp.nextInt (Except.ok NumberInt.bigInt) :: s)
      = StepR.panicked PanicSite.bigIntUnimplemented := by
  rw [build_peek_digit src b _ hb1 hb2]
  rfl

/-- C2 (witness): the amended theorem applied to the digit peek `1` and a
BigInt integer response. -/
theorem C2_bigint_fails_fast_witness :
    48 ≤ 49 ∧ 49 ≤ 57
    ∧ jiter_to_value_with_peek ⟨0, 30⟩ ⟨49⟩ [Resp.nextInt (Except.ok NumberInt.bigInt)]
        = StepR.panicked PanicSite.bigIntUnimplemented :=
  ⟨by decide, by decide, C2_bigint_fails_fast ⟨0, 30⟩ 49 [] (by decide) (by decide)⟩

/-- C3 (counterexample): on a peeked kind outside the dispatch (byte 120,
the letter x), the builder does not fail with a catchable error condition
— it panics (`unimplemented!("peek {:?}", peek)`), aborting instead of
returning through the catchable error channel. -/
theorem C3_cex :
    jiter_to_value_with_peek ⟨0, 1⟩ ⟨120⟩ []
      = StepR.panicked (PanicSite.peekUnimplemented ⟨120⟩)
    ∧ (jiter_to_value_with_peek ⟨0, 1⟩ ⟨120⟩ []).isErr = false := by
  have h := build_peek_unsupported ⟨0, 1⟩ ⟨120⟩ [] (by decide) (by decide) (by decide)
    (by decide) (by decide) (by decide) (by decide) (by decide) (by decide) (by decide)
  rw [h]
  exact ⟨rfl, rfl⟩

/-- C3 (amended): every peeked token kind not enumerated in the dispatch
(not Null, True, False, Minus, Infinity, NaN, String, Array, Object, and
not numeric) fails fast at an explicit panic site naming the offending
kind, rather than being silently coerced — though the failure is a panic,
not a catchable error return; Infinity and NaN are mapped to the
corresponding float scalar Values. -/
theorem C3_unsupported_kind_fails_fast (src : Buf) (p : Peek) (s : Script)
    (c1 : p ≠ Peek.Null) (c2 : p ≠ Peek.True) (c3 : p ≠ Peek.False)
    (c4 : p ≠ Peek.Minus) (c5 : p ≠ Peek.Infinity) (c6 : p ≠ Peek.NaN)
    (c7 : p ≠ Peek.String) (c8 : p ≠ Peek.Array) (c9 : p ≠ Peek.Object)
    (cn : p.isNum = false) :
    jiter_to_value_with_peek src p s = StepR.panicked (PanicSite.peekUnimplemented p)
    ∧ jiter_to_value_with_peek src Peek.Infinity s = StepR.ok (Value.Float F64.infinity) 0
    ∧ jiter_to_value_with_peek src Peek.NaN s = StepR.ok (Value.Float F64.nan) 0 :=
  ⟨build_peek_unsupported src p s c1 c2 c3 c4 c5 c6 c7 c8 c9 cn,
   build_peek_infinity src s, build_peek_nan src s⟩

/-- C3 (witness): the amended theorem applied to the unrecognized peek
byte 120. -/
theorem C3_unsupported_kind_fails_fast_witness :
    (⟨120⟩ : Peek) ≠ Peek.Null
    ∧ (⟨120⟩ : Peek).isNum = false
    ∧ (jiter_to_value_with_peek ⟨0, 1⟩ ⟨120⟩ [Resp.peek (Except.ok Peek.Null)]
        = StepR.panicked (PanicSite.peekUnimplemented ⟨120⟩)
      ∧ jiter_to_value_with_peek ⟨0, 1⟩ Peek.Infinity [Resp.peek (Except.ok Peek.Null)]
        = StepR.ok (Value.Float F64.infinity) 0
      ∧ jiter_to_value_with_peek ⟨0, 1⟩ Peek.NaN [Resp.peek (Except.ok Peek.Null)]
        = StepR.ok (Value.Float F64.nan) 0) :=
  ⟨by decide, by decide,
   C3_unsupported_kind_fails_fast ⟨0, 1⟩ ⟨120⟩ [Resp.peek (Except.ok Peek.Null)]
     (by decide) (by decide) (by decide) (by decide) (by decide) (by decide)
     (by decide) (by decide) (by decide) (by decide)⟩

/-- C4: parsing the token stream of the document with duplicate keys
`a:1, a:2` yields a Map with the single entry binding content `a` to
`Int 2`; and in general the insert-or-overwrite operation the object loop
folds over its accumulator, starting from the empty map, keeps every key
content at most once and binds each key content to the value of its last
occurrence in the inserted sequence. -/
theorem C4_duplicate_keys_last_write_wins :
    jiter_to_value ⟨0, 13⟩
        [Resp.peek (Except.ok Peek.Object),
         Resp.knownObject (Except.ok (some ⟨2, "a"⟩)),
         Resp.peek (Except.ok ⟨49⟩),
         Resp.nextInt (Except.ok (NumberInt.int 1)),
         Resp.nextKey (Except.ok (some ⟨8, "a"⟩)),
         Resp.peek (Except.ok ⟨50⟩),
         Resp.nextInt (Except.ok (NumberInt.int 2)),
         Resp.nextKey (Except.ok none)]
      = StepR.ok (Value.Map [(CowStr.Borrowed 2 "a", Value.Int 2)]) 8
    ∧ (∀ ps : List (CowStr × Value), (keyList (insertAll [] ps)).Nodup)
    ∧ (∀ (ps : List (CowStr × Value)) (c : String),
        lookupContent (insertAll [] ps) c = lastValue ps c) := by
  refine ⟨?_, fun ps => nodup_keyList_insertAll ps [] (by simp [keyList]),
    fun ps c => ?_⟩
  · simp [jiter_to_value, build_peek_object, objCase, objLoop, build_peek_digit,
      cowify, Map.insert, CowStr.content, numCase]
  · rw [lookupContent_insertAll]
    rfl

/-- C5: the numeric arm attempts 64-bit integer consumption first —
an integer response becomes `Value::Int` with no float consumption — and
falls back to float consumption exactly when integer consumption fails,
the float response then becoming `Value::Float`. -/
theorem C5_int_first_float_fallback (src : Buf) (b : Nat) (s : Script)
    (i : Int) (e : JErr) (f : F64) (hb1 : 48 ≤ b) (hb2 : b ≤ 57) :
    jiter_to_value_with_peek src ⟨b⟩ (Resp.nextInt (Except.ok (NumberInt.int i)) :: s)
      = StepR.ok (Value.Int i) 1
    ∧ jiter_to_value_with_peek src ⟨b⟩
        (Resp.nextInt (Except.error e) :: Resp.nextFloat (Except.ok f) :: s)
      = StepR.ok (Value.Float f) 2 := by
  refine ⟨?_, ?_⟩ <;> rw [build_peek_digit src b _ hb1 hb2] <;> rfl

/-- C5 (witness): parsing the token `42` yields `Int 42`; parsing `42.0`
(whose integer consumption fails) yields the float value the Token Source
returns. -/
theorem C5_int_first_float_fallback_witness :
    48 ≤ 52 ∧ 52 ≤ 57
    ∧ (jiter_to_value_with_peek ⟨0, 2⟩ ⟨52⟩ [Resp.nextInt (Except.ok (NumberInt.int 42))]
        = StepR.ok (Value.Int 42) 1
      ∧ jiter_to_value_with_peek ⟨0, 2⟩ ⟨52⟩
          [Resp.nextInt (Except.error ⟨1, 0⟩), Resp.nextFloat (Except.ok (F64.finite 42 0))]
        = StepR.ok (Value.Float (F64.finite 42 0)) 2) :=
  ⟨by decide, by decide,
   C5_int_first_float_fallback ⟨0, 2⟩ 52 [] 42 ⟨1, 0⟩ (F64.finite 42 0)
     (by decide) (by decide)⟩

/-- C6: a string whose materialized text is backed by memory outside the
input buffer — as happens when the Token Source un-escapes into a
separate allocation — becomes an Owned StringSpan whose content is
exactly the text the Token Source materialized. -/
theorem C6_escaped_strings_owned (src : Buf) (sp : Span) (s : Script)
    (h : sp.ptr < src.base ∨ src.base + src.len ≤ sp.ptr) :
    jiter_to_value_with_peek src Peek.String (Resp.knownStr (Except.ok sp) :: s)
      = StepR.ok (Value.Str (CowStr.Owned sp.text)) 1 := by
  have hne : ¬ (src.base ≤ sp.ptr ∧ sp.ptr < src.base + src.len) := by omega
  simp [build_peek_string, strCase, cowify, hne]

/-- C6 (witness): the theorem applied to a buffer `[0, 4)` and a slice
allocated at address 100. -/
theorem C6_escaped_strings_owned_witness :
    ((100 : Nat) < 0 ∨ (0 : Nat) + 4 ≤ 100)
    ∧ jiter_to_value_with_peek ⟨0, 4⟩ Peek.String
        [Resp.knownStr (Except.ok ⟨100, "ab"⟩)]
      = StepR.ok (Value.Str (CowStr.Owned "ab")) 1 :=
  ⟨by decide, C6_escaped_strings_owned ⟨0, 4⟩ ⟨100, "ab"⟩ [] (by decide)⟩

/-- C7 (counterexample): a token stream in which the Token Source reports
a lexical error in both numeric consumptions (e.g. the document `1e`)
does not surface that error: the build hits
`unreachable!("not an int, not a float!")` and panics, so not every
Token Source lexical error is returned unchanged to the caller. -/
theorem C7_cex :
    jiter_to_value ⟨0, 2⟩
        [Resp.peek (Except.ok ⟨49⟩),
         Resp.nextInt (Except.error ⟨5, 1⟩),
         Resp.nextFloat (Except.error ⟨5, 1⟩)]
      = StepR.panicked PanicSite.intNorFloat
    ∧ (jiter_to_value ⟨0, 2⟩
        [Resp.peek (Except.ok ⟨49⟩),
         Resp.nextInt (Except.error ⟨5, 1⟩),
         Resp.nextFloat (Except.error ⟨5, 1⟩)]).isErr = false := by
  have h := build_peek_digit ⟨0, 2⟩ 49
    [Resp.nextInt (Except.error ⟨5, 1⟩), Resp.nextFloat (Except.error ⟨5, 1⟩)]
    (by decide) (by decide)
  constructor <;> simp [jiter_to_value, h, numCase, StepR.isErr]

/-- C7 (amended): a lexical error reported by the peek, string, array
open/step, or object open/value-peek/next-key operation aborts the build
and is returned to the caller unchanged, with no partial value — in
particular the stream of the malformed document (a key followed by a
value-peek error, as for the input where a value is missing after the
colon) returns exactly the Token Source's error; the exception is the
numeric arm, where an integer-consumption error triggers the float
fallback instead of propagating. -/
theorem C7_lexical_error_propagation :
    (∀ (src : Buf) (e : JErr) (s : Script),
      jiter_to_value src (Resp.peek (Except.error e) :: s) = StepR.err e)
    ∧ (∀ (src : Buf) (e : JErr) (s : Script),
      jiter_to_value_with_peek src Peek.String
        (Resp.knownStr (Except.error e) :: s) = StepR.err e)
    ∧ (∀ (src : Buf) (e : JErr) (s : Script),
      jiter_to_value_with_peek src Peek.Array
        (Resp.knownArray (Except.error e) :: s) = StepR.err e)
    ∧ (∀ (src : Buf) (e : JErr) (s : Script),
      jiter_to_value_with_peek src Peek.Object
        (Resp.knownObject (Except.error e) :: s) = StepR.err e)
    ∧ (∀ (src : Buf) (e : JErr) (s : Script),
      jiter_to_value_with_peek src Peek.Array
        (Resp.knownArray (Except.ok (some Peek.Null))
          :: Resp.arrayStep (Except.error e) :: s) = StepR.err e)
    ∧ (∀ (src : Buf) (e : JErr) (s : Script),
      jiter_to_value_with_peek src Peek.Array
        (Resp.knownArray (Except.ok (some Peek.String))
          :: Resp.knownStr (Except.error e) :: s) = StepR.err e)
    ∧ (∀ (src : Buf) (e : JErr) (s : Script) (key : Span),
      jiter_to_value_with_peek src Peek.Object
        (Resp.knownObject (Except.ok (some key))
          :: Resp.peek (Except.error e) :: s) = StepR.err e)
    ∧ (∀ (src : Buf) (e : JErr) (s : Script) (key : Span),
      jiter_to_value_with_peek src Peek.Object
        (Resp.knownObject (Except.ok (some key))
          :: Resp.peek (Except.ok Peek.Null)
          :: Resp.nextKey (Except.error e) :: s) = StepR.err e) := by
  refine ⟨?_, ?_, ?_, ?_, ?_, ?_, ?_, ?_⟩ <;> intro src e s
  · simp [jiter_to_value]
  · simp [build_peek_string, strCase]
  · simp [build_peek_array, arrCase]
  · simp [build_peek_object, objCase]
  · simp [build_peek_array, arrCase, arrLoop, build_peek_null]
  · simp [build_peek_array, arrCase, arrLoop, build_peek_string, strCase]
  · intro key
    simp [build_peek_object, objCase, objLoop]
  · intro key
    simp [build_peek_object, objCase, objLoop, build_peek_null]

/-- C8: a standalone unresolved `Minus` peek reaching the dispatch fails
fast at its own distinct panic site (`unimplemented!()`), for every
script: the builder consumes nothing and performs no manual sign
handling. -/
theorem C8_minus_fails_fast (src : Buf) (s : Script) :
    jiter_to_value_with_peek src Peek.Minus s
      = StepR.panicked PanicSite.minusUnimplemented :=
  build_peek_minus src s

/-- C9: parsing the empty-array stream yields an Array with zero
elements; parsing the empty-object stream yields a Map with zero entries;
and for non-empty containers, array elements are appended in encounter
order, universally over all token streams: the element loop only ever
extends its accumulator on the right (never reordering, dropping or
prepending anything), and a successful loop round starting from the empty
accumulator yields the value built from the first encountered element
followed by the values of the remaining rounds; a concrete three-element
stream is assembled as [1, 2, 3]. -/
theorem C9_empty_containers_and_order :
    jiter_to_value ⟨0, 2⟩ [Resp.peek (Except.ok Peek.Array), Resp.knownArray (Except.ok none)]
      = StepR.ok (Value.Array []) 2
    ∧ jiter_to_value ⟨0, 2⟩
        [Resp.peek (Except.ok Peek.Object), Resp.knownObject (Except.ok none)]
      = StepR.ok (Value.Map []) 2
    ∧ (∀ (src : Buf) (s : Script) (next : Option Peek) (acc tail : List Value) (k : Nat),
        arrLoop src next [] s = StepR.ok tail k →
        arrLoop src next acc s = StepR.ok (acc ++ tail) k)
    ∧ (∀ (src : Buf) (p : Peek) (s : Script) (v : Value) (k : Nat)
        (next2 : Option Peek) (rest2 : Script) (tail : List Value) (k2 : Nat),
        jiter_to_value_with_peek src p s = StepR.ok v k →
        s.drop k = Resp.arrayStep (Except.ok next2) :: rest2 →
        arrLoop src next2 [] rest2 = StepR.ok tail k2 →
        arrLoop src (some p) [] s = StepR.ok (v :: tail) (k + 1 + k2))
    ∧ jiter_to_value ⟨0, 7⟩
        [Resp.peek (Except.ok Peek.Array),
         Resp.knownArray (Except.ok (some ⟨49⟩)),
         Resp.nextInt (Except.ok (NumberInt.int 1)),
         Resp.arrayStep (Except.ok (some ⟨50⟩)),
         Resp.nextInt (Except.ok (NumberInt.int 2)),
         Resp.arrayStep (Except.ok (some ⟨51⟩)),
         Resp.nextInt (Except.ok (NumberInt.int 3)),
         Resp.arrayStep (Except.ok none)]
      = StepR.ok (Value.Array [Value.Int 1, Value.Int 2, Value.Int 3]) 8 := by
  refine ⟨?_, ?_,
    fun src s next acc tail k h => arrLoop_append_acc src s next acc tail k h,
    fun src p s v k next2 rest2 tail k2 hb hd hz =>
      arrLoop_cons src p s v k next2 rest2 tail k2 hb hd hz, ?_⟩
  · simp [jiter_to_value, build_peek_array, arrCase, arrLoop]
  · simp [jiter_to_value, build_peek_object, objCase, objLoop]
  · simp [jiter_to_value, build_peek_array, arrCase, arrLoop, build_peek_digit, numCase]

/-- C9 (witness): the universal append and first-element conjuncts of the
theorem applied to a concrete one-element loop: from the loop result
`[Null]` on the empty accumulator, the same stream with accumulator
`[Int 7]` yields `[Int 7, Null]` (appended on the right), and the
first-element characterization rebuilds `[Null]` as `Null` consed onto
the empty remainder. -/
theorem C9_empty_containers_and_order_witness :
    arrLoop ⟨0, 1⟩ (some Peek.Null) [] [Resp.arrayStep (Except.ok none)]
      = StepR.ok [Value.Null] 1
    ∧ arrLoop ⟨0, 1⟩ (some Peek.Null) [Value.Int 7] [Resp.arrayStep (Except.ok none)]
      = StepR.ok [Value.Int 7, Value.Null] 1
    ∧ jiter_to_value_with_peek ⟨0, 1⟩ Peek.Null [Resp.arrayStep (Except.ok none)]
      = StepR.ok Value.Null 0
    ∧ ([Resp.arrayStep (Except.ok none)] : Script).drop 0
      = Resp.arrayStep (Except.ok none) :: ([] : Script)
    ∧ arrLoop ⟨0, 1⟩ none ([] : List Value) ([] : Script) = StepR.ok [] 0
    ∧ arrLoop ⟨0, 1⟩ (some Peek.Null) [] [Resp.arrayStep (Except.ok none)]
      = StepR.ok (Value.Null :: []) (0 + 1 + 0) := by
  have h0 : arrLoop ⟨0, 1⟩ (some Peek.Null) [] [Resp.arrayStep (Except.ok none)]
      = StepR.ok [Value.Null] 1 := by
    simp [arrLoop, build_peek_null]
  have hb : jiter_to_value_with_peek ⟨0, 1⟩ Peek.Null [Resp.arrayStep (Except.ok none)]
      = StepR.ok Value.Null 0 := build_peek_null _ _
  have hz : arrLoop ⟨0, 1⟩ none ([] : List Value) ([] : Script) = StepR.ok [] 0 := by
    simp [arrLoop]
  refine ⟨h0, ?_, hb, rfl, hz, ?_⟩
  · have h2 := C9_empty_containers_and_order.2.2.1 ⟨0, 1⟩
      [Resp.arrayStep (Except.ok none)] (some Peek.Null) [Value.Int 7] [Value.Null] 1 h0
    simpa using h2
  · exact C9_empty_containers_and_order.2.2.2.1 ⟨0, 1⟩ Peek.Null
      [Resp.arrayStep (Except.ok none)] Value.Null 0 none [] [] 0 hb rfl hz

/-- C10: the borrow/copy decision never alters the string content: for
every buffer and every slice, the StringSpan `cowify` returns is
content-equal to the slice's text, whichever variant is chosen. -/
theorem C10_cowify_preserves_content (src : Buf) (sp : Span) :
    (cowify src sp).content = sp.text := by
  rw [cowify]
  split <;> rfl

end Merde
